import Mathlib

/-!
Shallow embedding of the entity-manager repository (Python) in Lean 4.

The repository wraps three issue trackers behind one contract:
  * entity_manager/backends/github.py  (hosted-forge backend, GraphQL)
  * entity_manager/backends/beads.py   (local-CLI backend, bd subprocess)
  * src/entity_manager/backends/notion.py (document-workspace backend)
plus entity_manager/config.py (YAML config with local/global merge) and
entity_manager/backend.py (the abstract base class).

Python dictionaries are embedded as association lists with insertion-order
semantics (update in place on an existing key, append on a new key), strings
as Lean String (logically a list of characters) and, where the code does
character-level work (label encoding), directly as lists of characters.
Remote side effects (GraphQL mutations, bd subprocess calls, Notion page
writes) are embedded as values describing exactly the native call the code
issues, so that equalities between traces state which primitive operations
are driven.  Raised ValueError exceptions are embedded as an error type
carrying the data interpolated into the Python message.
-/

namespace EntityManager

/-- Characters of a Python string, used where the code manipulates strings
character by character. -/
abbrev Str := List Char

/-! ### Python dict and string primitives -/

/-- Python dict assignment `d[k] = v`: the value is updated in place when the
key exists, otherwise the pair is appended (insertion order preserved). -/
def dictInsert {α β : Type _} [DecidableEq α] :
    List (α × β) → α → β → List (α × β)
  | [], k, v => [(k, v)]
  | (k0, v0) :: rest, k, v =>
    if k0 = k then (k0, v) :: rest else (k0, v0) :: dictInsert rest k v

/-- Python dict lookup `d.get(k)`. -/
def dictLookup {α β : Type _} [DecidableEq α] : List (α × β) → α → Option β
  | [], _ => none
  | (k0, v0) :: rest, k => if k0 = k then some v0 else dictLookup rest k

/-- Python `d.update(e)`: assign every pair of `e` into `d` in order. -/
def dictUpdate {α β : Type _} [DecidableEq α] (d e : List (α × β)) :
    List (α × β) :=
  e.foldl (fun acc kv => dictInsert acc kv.1 kv.2) d

/-- Keys of an embedded dict. -/
def dictKeys {α β : Type _} (d : List (α × β)) : List α :=
  d.map Prod.fst

/-- A dict built from a list of assignments, starting empty. -/
def dictOfList {α β : Type _} [DecidableEq α] (e : List (α × β)) :
    List (α × β) :=
  dictUpdate [] e

/-- Local-first option fallback, used to state lookup merges. -/
def orElseO {β : Type _} : Option β → Option β → Option β
  | some v, _ => some v
  | none, b => b

/-- Python `str.lower()` (ASCII). -/
def pyLower (s : Str) : Str := s.map Char.toLower

/-- Python `str.strip()`: drop leading and trailing whitespace. -/
def pyStrip (s : Str) : Str :=
  ((s.dropWhile Char.isWhitespace).reverse.dropWhile Char.isWhitespace).reverse

/-- Python `s.split(sep, 1)` on a one-character separator that occurs in `s`:
the part before the first occurrence and the part after it. -/
def splitFirst (c : Char) : Str → Str × Str
  | [] => ([], [])
  | x :: xs =>
    if x = c then ([], xs)
    else
      let r := splitFirst c xs
      (x :: r.1, r.2)

/-- Truthiness of an optional Python string (`if s:`). -/
def truthyStr : Option String → Bool
  | none => false
  | some s => s ≠ ""

/-- Truthiness of an optional Python non-negative integer (`if n:`). -/
def truthyNat : Option Nat → Bool
  | none => false
  | some n => n ≠ 0

/-! ### Data model (entity_manager/models.py) -/

/-- A description of a Python value, used for dict-shaped return values. -/
inductive PyVal where
  | str (s : String)
  | list (xs : List PyVal)
  | dict (entries : List (String × PyVal))
  | pynone

/-- Python truthiness of an embedded value. -/
def pyTruthy : PyVal → Bool
  | .str s => s ≠ ""
  | .list xs => ¬xs.isEmpty
  | .dict entries => ¬entries.isEmpty
  | .pynone => false

/-- Entity dataclass from models.py (metadata is backend-specific passthrough). -/
structure Entity where
  id : String
  title : String
  description : String := ""
  labels : List (Str × Str) := []
  assignee : Option String := none
  status : String := "open"
  metadata : List (String × PyVal) := []

/-- Link dataclass from models.py. -/
structure Link where
  source_id : String
  target_id : String
  link_type : String := "relates_to"
deriving DecidableEq

/-- The data the Python ValueError raised for an unsupported link type
carries in its message: the offending (normalized) type and the supported
set.  The spec names this error UnsupportedLinkTypeError. -/
inductive EMError where
  | unsupportedLinkType (link_type : String) (supported : List String)
deriving DecidableEq

/-! ### GitHub backend (entity_manager/backends/github.py) -/

namespace GitHubBackend

/-- Normalization applied to link types: `link_type.lower().strip()`. -/
def normalizeLinkType (lt : String) : String :=
  String.mk (pyStrip (pyLower lt.data))

/-- Native GraphQL mutations issued by the link operations.  The first
argument of the blocked-by mutations is the node id of the blocked issue,
the second the node id of the blocking issue; for the sub-issue mutations
the first is the parent, the second the child. -/
inductive NativeCall where
  | addBlockedBy (issueId blockingIssueId : String)
  | removeBlockedBy (issueId blockingIssueId : String)
  | addSubIssue (issueId subIssueId : String)
  | removeSubIssue (issueId subIssueId : String)
deriving DecidableEq

/-- Link types accepted by add_link and remove_link. -/
def mutationTypes : List String := ["blocked by", "blocking", "parent"]

/-- Link types accepted by list_links. -/
def queryTypes : List String := ["blocked by", "blocking", "parent", "children"]

/-- GitHubBackend.add_link: normalize the type, reject anything outside
mutationTypes, then per target issue the native mutation.  The GetIssueId
query is embedded as the function nodeId from issue number to node id. -/
def add_link (nodeId : String → String) (source_id : String)
    (target_ids : List String) (link_type : String) :
    Except EMError (List NativeCall) :=
  let lt := normalizeLinkType link_type
  if lt ∉ mutationTypes then
    .error (.unsupportedLinkType lt mutationTypes)
  else
    let source_issue_id := nodeId source_id
    .ok (target_ids.map fun target_id =>
      let target_issue_id := nodeId target_id
      if lt = "blocked by" then
        .addBlockedBy source_issue_id target_issue_id
      else if lt = "blocking" then
        .addBlockedBy target_issue_id source_issue_id
      else
        .addSubIssue source_issue_id target_issue_id)

/-- GitHubBackend.remove_link (the recursive flag is unused by the code). -/
def remove_link (nodeId : String → String) (source_id : String)
    (target_ids : List String) (link_type : String)
    (recursive : Bool := false) :
    Except EMError (List NativeCall) :=
  let _ := recursive
  let lt := normalizeLinkType link_type
  if lt ∉ mutationTypes then
    .error (.unsupportedLinkType lt mutationTypes)
  else
    let source_issue_id := nodeId source_id
    .ok (target_ids.map fun target_id =>
      let target_issue_id := nodeId target_id
      if lt = "blocked by" then
        .removeBlockedBy source_issue_id target_issue_id
      else if lt = "blocking" then
        .removeBlockedBy target_issue_id source_issue_id
      else
        .removeSubIssue source_issue_id target_issue_id)

/-- The relationship data returned by the GetIssueLinks query used by
list_links: issue numbers of blockedBy, blocking, parent and subIssues. -/
structure IssueLinksData where
  blockedBy : List Nat
  blocking : List Nat
  parent : Option Nat
  subIssues : List Nat

/-- The category assembly at the end of GitHubBackend.list_links, applied to
the (possibly reassigned) link_type value: a falsy value selects every
category (`if not link_type or ...`). -/
def list_links_categories (data : IssueLinksData) (entity_id : String)
    (link_type : Option String) : List Link :=
  let blockedByLinks :=
    if truthyStr link_type = false ∨ link_type = some "blocked by" then
      data.blockedBy.map fun n =>
        { source_id := entity_id, target_id := toString n,
          link_type := "blocked by" }
    else []
  let blockingLinks :=
    if truthyStr link_type = false ∨ link_type = some "blocking" then
      data.blocking.map fun n =>
        { source_id := entity_id, target_id := toString n,
          link_type := "blocking" }
    else []
  let parentLinks :=
    if truthyStr link_type = false ∨ link_type = some "parent" then
      match data.parent with
      | some n => [{ source_id := entity_id, target_id := toString n,
                     link_type := "parent" : Link }]
      | none => []
    else []
  let childrenLinks :=
    if truthyStr link_type = false ∨ link_type = some "children" then
      data.subIssues.map fun n =>
        { source_id := entity_id, target_id := toString n,
          link_type := "children" }
    else []
  blockedByLinks ++ blockingLinks ++ parentLinks ++ childrenLinks

/-- GitHubBackend.list_links: the normalization and unsupported-type check
run only when the argument is truthy (`if link_type:`); a falsy argument
(None or the empty string) skips the check and selects every category. -/
def list_links (data : IssueLinksData) (entity_id : String)
    (link_type0 : Option String) : Except EMError (List Link) :=
  if truthyStr link_type0 then
    let lt := normalizeLinkType (link_type0.getD "")
    if lt ∉ queryTypes then
      .error (.unsupportedLinkType lt queryTypes)
    else .ok (list_links_categories data entity_id (some lt))
  else .ok (list_links_categories data entity_id link_type0)

/-- GitHubBackend._format_labels: one GitHub label name per pair, the name
being "key:value" for a non-empty value and just "key" otherwise. -/
def format_labels (labels : List (Str × Str)) : List Str :=
  labels.map fun kv => if kv.2 = [] then kv.1 else kv.1 ++ ':' :: kv.2

/-- The per-label body of the loop of GitHubBackend._parse_labels: split at
the first colon and strip key and value, or strip the bare label. -/
def parse_label_piece (label : Str) : Str × Str :=
  if ':' ∈ label then
    let kv := splitFirst ':' label
    (pyStrip kv.1, pyStrip kv.2)
  else (pyStrip label, [])

/-- GitHubBackend._parse_labels: split the comma-joined label string, split
each piece at the first colon, strip, and assign into a dict. -/
def parse_labels (labels_str : Str) : List (Str × Str) :=
  if labels_str = [] then []
  else dictOfList ((labels_str.splitOn ',').map parse_label_piece)

/-- The state mutation issued by GitHubBackend.update for a status argument:
nothing when the argument is falsy (`if status:`), otherwise one
UpdateIssueState mutation whose state is OPEN exactly for "open"
(`state_value = "OPEN" if status == "open" else "CLOSED"`). -/
def update_state_mutation (status : Option String) : Option String :=
  if truthyStr status then
    some (if status.getD "" = "open" then "OPEN" else "CLOSED")
  else none

/-- The UpdateIssueLabels mutation issued by GitHubBackend.update: none when
the labels argument is None (`if labels is not None:` fails), otherwise the
full replacement list of desired label names. -/
def update_labels_mutation (labels : Option (List (Str × Str))) :
    Option (List Str) :=
  labels.map format_labels

/-- Effect of GitHubBackend.update on the label names of the issue: the
UpdateIssueLabels mutation replaces all labels with labelIds (per the code
comment "Use updateIssue mutation with labelIds to replace all labels"), and
no mutation leaves them unchanged. -/
def update_apply_labels (current : List Str)
    (labels : Option (List (Str × Str))) : List Str :=
  match update_labels_mutation labels with
  | none => current
  | some names => names

/-- The first parameter of the ListIssues query in
GitHubBackend.list_entities: `limit or 100`. -/
def list_entities_first (limit : Option Nat) : Nat :=
  if truthyNat limit then limit.getD 0 else 100

/-- One related issue as returned by the GetIssueLinks tree query. -/
structure IssueNode where
  number : Nat
  title : String
  state : String

/-- The data returned by the GetIssueLinks query used by get_link_tree. -/
structure IssueTreeData where
  number : Nat
  title : String
  state : String
  blockedBy : List IssueNode
  blocking : List IssueNode
  parent : Option IssueNode
  subIssues : List IssueNode

/-- The id, title and lowercased state dict built for each related issue. -/
def nodeInfo (n : IssueNode) : PyVal :=
  .dict [("id", .str (toString n.number)), ("title", .str n.title),
         ("state", .str (String.mk (pyLower n.state.data)))]

/-- GitHubBackend.get_link_tree: the dict literal with entity and links
sections, the four link lists filled by the appends that follow it. -/
def get_link_tree (d : IssueTreeData) : PyVal :=
  .dict [("entity",
           .dict [("id", .str (toString d.number)), ("title", .str d.title),
                  ("state", .str (String.mk (pyLower d.state.data)))]),
         ("links",
           .dict [("children", .list (d.subIssues.map nodeInfo)),
                  ("blocking", .list (d.blocking.map nodeInfo)),
                  ("blocked_by", .list (d.blockedBy.map nodeInfo)),
                  ("parent", .list (match d.parent with
                    | some p => [nodeInfo p]
                    | none => []))])]

end GitHubBackend

/-! ### Beads backend (entity_manager/backends/beads.py) -/

namespace BeadsBackend

/-- The label strings passed with the -l flags by BeadsBackend.create:
"key:value" for a non-empty value, bare "key" otherwise. -/
def create_label_list (labels : List (Str × Str)) : List Str :=
  labels.map fun kv => if kv.2 = [] then kv.1 else kv.1 ++ ':' :: kv.2

/-- The per-label body of the parsing loop of BeadsBackend._bead_to_entity:
split at the first colon into key and value (no stripping), otherwise map
the bare label to the empty value. -/
def bead_label_piece (label : Str) : Str × Str :=
  if ':' ∈ label then splitFirst ':' label else (label, [])

/-- Label parsing in BeadsBackend._bead_to_entity over the JSON label
list. -/
def bead_labels_decode (names : List Str) : List (Str × Str) :=
  dictOfList (names.map bead_label_piece)

/-- One bd label subcommand issued by BeadsBackend.update. -/
inductive LabelCall where
  | remove (label : Str)
  | add (label : Str)
deriving DecidableEq

/-- The formatted label string used by BeadsBackend.update both when
removing old labels and adding new ones. -/
def update_label_str (kv : Str × Str) : Str :=
  if kv.2 = [] then kv.1 else kv.1 ++ ':' :: kv.2

/-- The bd label subcommands issued by BeadsBackend.update: none when the
labels argument is None, otherwise one remove per existing label followed by
one add per new label. -/
def update_label_calls (current : List (Str × Str))
    (labels : Option (List (Str × Str))) : List LabelCall :=
  match labels with
  | none => []
  | some m =>
      (current.map fun kv => .remove (update_label_str kv)) ++
      (m.map fun kv => .add (update_label_str kv))

/-- Effect of the bd label subcommands on the native label set of the bead
(bd labels are a set of strings: remove deletes the name, add inserts it). -/
def apply_label_calls (names : List Str) (calls : List LabelCall) : List Str :=
  calls.foldl
    (fun ns c =>
      match c with
      | .remove l => ns.filter (fun x => x ≠ l)
      | .add l => ns ++ [l])
    names

/-- The truncation applied by BeadsBackend.list_entities after parsing the
bd output: `if limit: entities = entities[:limit]`. -/
def list_entities_truncate (entities : List Entity) (limit : Option Nat) :
    List Entity :=
  if truthyNat limit then entities.take (limit.getD 0) else entities

/-- BeadsBackend.get_link_tree: dict literal with the entity section built
from the read issue and four empty link lists, which are then overwritten
from the bd dep tree JSON when that result is a dict, using
`result.get(key, [])` for the three list categories and wrapping a truthy
dict parent into a one-element list. -/
def get_link_tree (issue : Entity) (result : PyVal) : PyVal :=
  let baseLinks : List (String × PyVal) :=
    [("children", .list []), ("blocking", .list []),
     ("blocked_by", .list []), ("parent", .list [])]
  let links : List (String × PyVal) :=
    match result with
    | .dict d =>
        let children := (dictLookup d "children").getD (.list [])
        let blocking := (dictLookup d "blocking").getD (.list [])
        let blocked_by := (dictLookup d "blocked_by").getD (.list [])
        let parent :=
          match dictLookup d "parent" with
          | some p =>
              if pyTruthy p then
                match p with
                | .dict e => PyVal.list [.dict e]
                | other => other
              else .list []
          | none => .list []
        [("children", children), ("blocking", blocking),
         ("blocked_by", blocked_by), ("parent", parent)]
    | _ => baseLinks
  .dict [("entity",
           .dict [("id", .str issue.id), ("title", .str issue.title),
                  ("state", .str issue.status)]),
         ("links", .dict links)]

end BeadsBackend

/-! ### Notion backend (src/entity_manager/backends/notion.py) -/

namespace NotionBackend

/-- Python str.title() on ASCII: uppercase a letter after a non-letter,
lowercase a letter after a letter. -/
def pyTitleAux : Bool → Str → Str
  | _, [] => []
  | prevAlpha, c :: cs =>
    let c2 :=
      if c.isAlpha then (if prevAlpha then c.toLower else c.toUpper) else c
    c2 :: pyTitleAux c.isAlpha cs

/-- Python str.title(). -/
def pyTitle (s : String) : String := String.mk (pyTitleAux false s.data)

/-- A Notion property value as built by _build_properties. -/
inductive NotionProp where
  | title (content : String)
  | rich_text (content : String)
  | statusProp (name : String)
  | multi_select (names : List Str)
  | people (ids : List String)
deriving DecidableEq

/-- The label names placed in the Labels multi-select by _build_properties:
"key:value" for a non-empty value, bare "key" otherwise. -/
def build_label_names (labels : List (Str × Str)) : List Str :=
  labels.map fun kv => if kv.2 = [] then kv.1 else kv.1 ++ ':' :: kv.2

/-- NotionBackend._build_properties: each non-None argument contributes one
property; None arguments leave their property out of the dict. -/
def build_properties (title description : Option String)
    (labels : Option (List (Str × Str))) (status assignee : Option String) :
    List (String × NotionProp) :=
  let p0 : List (String × NotionProp) := []
  let p1 := match title with
    | some t => dictInsert p0 "Name" (.title t)
    | none => p0
  let p2 := match description with
    | some d => dictInsert p1 "Description" (.rich_text d)
    | none => p1
  let p3 := match status with
    | some s => dictInsert p2 "Status" (.statusProp (pyTitle s))
    | none => p2
  let p4 := match labels with
    | some m => dictInsert p3 "Labels" (.multi_select (build_label_names m))
    | none => p3
  let p5 := match assignee with
    | some a =>
        dictInsert p4 "Assignee" (if a ≠ "" then .people [a] else .people [])
    | none => p4
  p5

/-- The per-label body of the parsing loop of NotionBackend._page_to_entity:
split at the first colon and strip key and value, otherwise map the bare
name (not stripped) to the empty value. -/
def page_label_piece (label : Str) : Str × Str :=
  if ':' ∈ label then
    let kv := splitFirst ':' label
    (pyStrip kv.1, pyStrip kv.2)
  else (label, [])

/-- Label parsing in NotionBackend._page_to_entity over the multi-select
names. -/
def page_labels_decode (names : List Str) : List (Str × Str) :=
  dictOfList (names.map page_label_piece)

/-- The property map of add_link, remove_link and list_links, in insertion
order: uniform link type to relation property name. -/
def property_map : List (String × String) :=
  [("blocked by", "Blocked By"), ("blocking", "Blocking"),
   ("parent", "Parent"), ("children", "Children")]

/-- The four relation-valued properties of a page, keyed by property name. -/
structure PageRelations where
  blockedBy : List String := []
  blocking : List String := []
  parent : List String := []
  children : List String := []

/-- Reading a relation property from a page (the _parse_properties view of a
relation is its list of target page ids). -/
def getRelation (page : PageRelations) (property_name : String) :
    List String :=
  if property_name = "Blocked By" then page.blockedBy
  else if property_name = "Blocking" then page.blocking
  else if property_name = "Parent" then page.parent
  else page.children

/-- Writing a relation property back with pages.update. -/
def setRelation (page : PageRelations) (property_name : String)
    (rels : List String) : PageRelations :=
  if property_name = "Blocked By" then { page with blockedBy := rels }
  else if property_name = "Blocking" then { page with blocking := rels }
  else if property_name = "Parent" then { page with parent := rels }
  else { page with children := rels }

/-- NotionBackend.add_link on one source page: normalize the type, reject
anything outside the property map, then write back the set union of the
existing relation ids and the targets.  The Python code materializes the
union as a set; only its membership (each id at most once) is observable to
the claims, and the embedding fixes the enumeration order by deduplicating
existing ids followed by new target ids. -/
def add_link (page : PageRelations) (target_ids : List String)
    (link_type : String) : Except EMError PageRelations :=
  let lt := GitHubBackend.normalizeLinkType link_type
  match dictLookup property_map lt with
  | none => .error (.unsupportedLinkType lt (dictKeys property_map))
  | some property_name =>
      let existing_relations := getRelation page property_name
      let all_relation_ids := (existing_relations ++ target_ids).dedup
      .ok (setRelation page property_name all_relation_ids)

/-- NotionBackend.remove_link on one source page: keep the existing relation
ids that are not among the targets and write the list back. -/
def remove_link (page : PageRelations) (target_ids : List String)
    (link_type : String) (recursive : Bool := false) :
    Except EMError PageRelations :=
  let _ := recursive
  let lt := GitHubBackend.normalizeLinkType link_type
  match dictLookup property_map lt with
  | none => .error (.unsupportedLinkType lt (dictKeys property_map))
  | some property_name =>
      let existing_relations := getRelation page property_name
      let remaining_relations :=
        existing_relations.filter (fun rel_id => rel_id ∉ target_ids)
      .ok (setRelation page property_name remaining_relations)

/-- NotionBackend.list_links: iterate the property map in order, skip
categories that do not match a truthy filter, and emit one link per relation
target id. -/
def list_links (page : PageRelations) (entity_id : String)
    (link_type0 : Option String) : List Link :=
  let link_type : Option String :=
    if truthyStr link_type0 then
      some (GitHubBackend.normalizeLinkType (link_type0.getD ""))
    else link_type0
  (property_map.map fun pm =>
    if truthyStr link_type ∧ link_type ≠ some pm.1 then []
    else (getRelation page pm.2).map fun target_id =>
      { source_id := entity_id, target_id := target_id,
        link_type := pm.1 : Link }).flatten

/-- The per-link entry appended to the tree by get_link_tree. -/
def linkInfo (e : Entity) : PyVal :=
  .dict [("id", .str e.id), ("title", .str e.title), ("state", .str e.status)]

/-- The four accumulated link lists of get_link_tree: for each link the
target entity is fetched best-effort (a failed fetch, embedded as none,
omits the entry), then appended to the list of its category. -/
def collectLinks (fetch : String → Option Entity) (links : List Link) :
    List PyVal × List PyVal × List PyVal × List PyVal :=
  links.foldl
    (fun acc link =>
      match fetch link.target_id with
      | none => acc
      | some e =>
          let info := linkInfo e
          if link.link_type = "blocked by" then
            (acc.1, acc.2.1, acc.2.2.1 ++ [info], acc.2.2.2)
          else if link.link_type = "blocking" then
            (acc.1, acc.2.1 ++ [info], acc.2.2.1, acc.2.2.2)
          else if link.link_type = "parent" then
            (acc.1, acc.2.1, acc.2.2.1, acc.2.2.2 ++ [info])
          else if link.link_type = "children" then
            (acc.1 ++ [info], acc.2.1, acc.2.2.1, acc.2.2.2)
          else acc)
    ([], [], [], [])

/-- NotionBackend.get_link_tree: the entity section from the read entity and
the four link lists accumulated from its links. -/
def get_link_tree (entity : Entity) (links : List Link)
    (fetch : String → Option Entity) : PyVal :=
  let acc := collectLinks fetch links
  .dict [("entity",
           .dict [("id", .str entity.id), ("title", .str entity.title),
                  ("state", .str entity.status)]),
         ("links",
           .dict [("children", .list acc.1), ("blocking", .list acc.2.1),
                  ("blocked_by", .list acc.2.2.1),
                  ("parent", .list acc.2.2.2)])]

/-- The page_size query parameter of NotionBackend.list_entities:
`if limit: query_params page_size = min(limit, 100)`. -/
def list_entities_page_size (limit : Option Nat) : Option Nat :=
  if truthyNat limit then some (min (limit.getD 0) 100) else none

/-- The collection loop of NotionBackend.list_entities: append each page of
the response, breaking once a truthy limit is reached. -/
def list_entities_collect (results : List Entity) (limit : Option Nat)
    (acc : List Entity) : List Entity :=
  match results with
  | [] => acc.reverse
  | page :: rest =>
      let acc2 := page :: acc
      if truthyNat limit ∧ acc2.length ≥ limit.getD 0 then acc2.reverse
      else list_entities_collect rest limit acc2

end NotionBackend

/-! ### Config (entity_manager/config.py) -/

/-- The in-memory state of a Config instance: the scope flag, the loaded own
config mapping and the loaded global fallback mapping (empty for a
global-scoped instance). -/
structure Config where
  is_global : Bool
  config : List (String × String)
  global_config : List (String × String)

/-- Config.get: own config first, then the global fallback for a local
scope, then the default. -/
def Config.get (cfg : Config) (key : String)
    (default : Option String := none) : Option String :=
  match dictLookup cfg.config key with
  | some value => some value
  | none =>
      if cfg.is_global = false then
        match dictLookup cfg.global_config key with
        | some value => some value
        | none => default
      else default

/-- Config.list: a copy of the own config for a global scope, otherwise a
copy of the global config updated with the local one (local wins). -/
def Config.list (cfg : Config) : List (String × String) :=
  if cfg.is_global then cfg.config else dictUpdate cfg.global_config cfg.config

/-! ### Backend contract coverage (backend.py and the backend classes) -/

/-- The abstract methods declared by Backend in entity_manager/backend.py. -/
def backendAbstractMethods : List String :=
  ["create", "read", "update", "delete", "list_entities", "add_link",
   "remove_link", "list_links", "get_link_tree", "find_cycles",
   "get_config", "set_config", "unset_config", "list_config"]

/-- The contract methods defined by class GitHubBackend in github.py. -/
def githubBackendMethods : List String :=
  ["create", "read", "update", "delete", "list_entities", "add_link",
   "remove_link", "list_links", "get_link_tree", "find_cycles",
   "get_config", "set_config", "unset_config", "list_config"]

/-- The contract methods defined by class BeadsBackend in beads.py. -/
def beadsBackendMethods : List String :=
  ["create", "read", "update", "delete", "list_entities", "add_link",
   "remove_link", "list_links", "get_link_tree", "find_cycles",
   "get_config", "set_config", "unset_config", "list_config"]

/-- The contract methods defined by class NotionBackend in notion.py. -/
def notionBackendMethods : List String :=
  ["create", "read", "update", "delete", "list_entities", "add_link",
   "remove_link", "list_links", "get_link_tree", "find_cycles"]

/-- The abstract methods a backend class leaves unimplemented. -/
def unimplementedAbstract (methods : List String) : List String :=
  backendAbstractMethods.filter (fun m => m ∉ methods)

/-- Python ABC semantics: a class with unimplemented abstract methods cannot
be instantiated (TypeError at construction). -/
def canInstantiate (methods : List String) : Bool :=
  (unimplementedAbstract methods).isEmpty

/-! ### Property formalization helpers -/

/-- The id, title and state entries of a one-hop tree entity or link item. -/
def infoOk (v : PyVal) (id title state : String) : Prop :=
  match v with
  | .dict e =>
      dictLookup e "id" = some (.str id) ∧
      dictLookup e "title" = some (.str title) ∧
      dictLookup e "state" = some (.str state)
  | _ => False

/-- Whether a value is a Python list. -/
def isListVal : PyVal → Bool
  | .list _ => true
  | _ => false

/-- Whether the tree has a links dict binding all four canonical keys to
list values. -/
def treeLinksAllLists (tree : PyVal) : Bool :=
  match tree with
  | .dict entries =>
      match dictLookup entries "links" with
      | some (.dict links) =>
          ["children", "blocking", "blocked_by", "parent"].all fun k =>
            match dictLookup links k with
            | some v => isListVal v
            | none => false
      | _ => false
  | _ => false

/-- Whether the tree has an entity record with the given id, title and
state. -/
def treeEntityOk (tree : PyVal) (id title state : String) : Prop :=
  match tree with
  | .dict entries =>
      match dictLookup entries "entity" with
      | some v => infoOk v id title state
      | none => False
  | _ => False

/-- A label pair on which the adapter encode and decode steps are lossless:
non-empty key, no colon or comma in key or value, and no leading or trailing
whitespace in either (stripping leaves them unchanged). -/
def goodLabelEntry (kv : Str × Str) : Prop :=
  kv.1 ≠ [] ∧ ':' ∉ kv.1 ∧ ',' ∉ kv.1 ∧ pyStrip kv.1 = kv.1 ∧
  ':' ∉ kv.2 ∧ ',' ∉ kv.2 ∧ pyStrip kv.2 = kv.2

instance (kv : Str × Str) : Decidable (goodLabelEntry kv) := by
  unfold goodLabelEntry; infer_instance

/-- Well-formedness of a bd dep tree JSON result, per the bd --json output
contract: relationship categories, when present, are JSON arrays, and a
parent, when present, is an object, an array or empty. -/
def beadsTreeWF (result : PyVal) : Prop :=
  ∀ d, result = .dict d →
    (∀ k, k ∈ (["children", "blocking", "blocked_by"] : List String) →
      ∀ v, dictLookup d k = some v → isListVal v = true) ∧
    (∀ v, dictLookup d "parent" = some v →
      (∃ e, v = .dict e) ∨ isListVal v = true ∨ pyTruthy v = false)

/-- A sample entity used to evaluate claims at concrete inputs. -/
def sampleEntity : Entity := { id := "bd-1", title := "t" }

/-! ### Lemmas on the dict embedding -/

theorem dictLookup_dictInsert {α β : Type _} [DecidableEq α]
    (d : List (α × β)) (k : α) (v : β) (k1 : α) :
    dictLookup (dictInsert d k v) k1 =
      if k = k1 then some v else dictLookup d k1 := by
  induction d with
  | nil => simp [dictInsert, dictLookup]
  | cons hd tl ih =>
      obtain ⟨k0, v0⟩ := hd
      by_cases h0 : k0 = k
      · subst h0
        by_cases h1 : k0 = k1 <;> simp [dictInsert, dictLookup, h1]
      · by_cases h1 : k0 = k1
        · subst h1
          simp [dictInsert, dictLookup, h0, Ne.symm h0]
        · simp [dictInsert, dictLookup, h0, h1, ih]

theorem dictLookup_eq_none {α β : Type _} [DecidableEq α] (k : α)
    (d : List (α × β)) :
    k ∉ dictKeys d → dictLookup d k = none := by
  induction d with
  | nil => intro _; rfl
  | cons hd tl ih =>
      intro h
      obtain ⟨k0, v0⟩ := hd
      simp only [dictKeys, List.map_cons, List.mem_cons, not_or] at h
      simp [dictLookup, Ne.symm h.1, ih (by simpa [dictKeys] using h.2)]

theorem dictUpdate_cons {α β : Type _} [DecidableEq α]
    (d : List (α × β)) (k : α) (v : β) (rest : List (α × β)) :
    dictUpdate d ((k, v) :: rest) = dictUpdate (dictInsert d k v) rest := rfl

theorem dictLookup_dictUpdate {α β : Type _} [DecidableEq α]
    (e : List (α × β)) :
    ∀ (d : List (α × β)) (k : α), (dictKeys e).Nodup →
      dictLookup (dictUpdate d e) k =
        orElseO (dictLookup e k) (dictLookup d k) := by
  induction e with
  | nil => intro d k _; simp [dictUpdate, dictLookup, orElseO]
  | cons hd tl ih =>
      intro d k h
      obtain ⟨k0, v0⟩ := hd
      simp only [dictKeys, List.map_cons, List.nodup_cons] at h
      rw [dictUpdate_cons,
        ih (dictInsert d k0 v0) k (by simpa [dictKeys] using h.2)]
      by_cases h1 : k0 = k
      · subst h1
        have htl : dictLookup tl k0 = none :=
          dictLookup_eq_none k0 tl (by simpa [dictKeys] using h.1)
        simp [dictLookup, htl, dictLookup_dictInsert, orElseO]
      · simp [dictLookup, h1, dictLookup_dictInsert, orElseO]

theorem dictInsert_append {α β : Type _} [DecidableEq α] (k : α) (v : β)
    (d : List (α × β)) :
    k ∉ dictKeys d → dictInsert d k v = d ++ [(k, v)] := by
  induction d with
  | nil => intro _; rfl
  | cons hd tl ih =>
      intro h
      obtain ⟨k0, v0⟩ := hd
      simp only [dictKeys, List.map_cons, List.mem_cons, not_or] at h
      simp [dictInsert, Ne.symm h.1, ih (by simpa [dictKeys] using h.2)]

theorem dictUpdate_append {α β : Type _} [DecidableEq α]
    (e : List (α × β)) :
    ∀ d : List (α × β), (dictKeys e).Nodup →
      (∀ k, k ∈ dictKeys e → k ∉ dictKeys d) → dictUpdate d e = d ++ e := by
  induction e with
  | nil => intro d _ _; simp [dictUpdate]
  | cons hd tl ih =>
      intro d hnd hdisj
      obtain ⟨k0, v0⟩ := hd
      simp only [dictKeys, List.map_cons, List.nodup_cons] at hnd
      have hk0 : k0 ∉ dictKeys d := hdisj k0 (by simp [dictKeys])
      rw [dictUpdate_cons, dictInsert_append k0 v0 d hk0,
        ih (d ++ [(k0, v0)]) (by simpa [dictKeys] using hnd.2) ?_]
      · simp
      · intro k hk hmem
        rw [dictKeys, List.map_append] at hmem
        rcases List.mem_append.1 hmem with hmem | hmem
        · have hcons : k ∈ dictKeys ((k0, v0) :: tl) := by
            rw [dictKeys, List.map_cons]
            exact List.mem_cons_of_mem _ hk
          exact hdisj k hcons hmem
        · have hkk0 : k = k0 := by simpa using hmem
          subst hkk0
          exact hnd.1 (by simpa [dictKeys] using hk)

theorem dictOfList_eq_self {α β : Type _} [DecidableEq α]
    (e : List (α × β)) (hnd : (dictKeys e).Nodup) :
    dictOfList e = e := by
  simpa [dictOfList] using
    dictUpdate_append e [] hnd (by simp [dictKeys])

/-! ### Claim theorems -/

/-- C9 (code_bug evidence): NotionBackend defines none of the four config
operations declared abstract by Backend, so it cannot be instantiated under
ABC semantics, while the GitHub and Beads classes implement the complete
contract.  The spec and the Notion test fixture both require the
document-workspace variant to be constructible. -/
theorem notion_backend_missing_config_ops :
    unimplementedAbstract notionBackendMethods =
      ["get_config", "set_config", "unset_config", "list_config"] ∧
    canInstantiate notionBackendMethods = false ∧
    canInstantiate githubBackendMethods = true ∧
    canInstantiate beadsBackendMethods = true := by
  refine ⟨?_, ?_, ?_, ?_⟩ <;> rfl

/-- C10: GitHubBackend.update issues no state mutation for a falsy status
(None or the empty string) and otherwise one UpdateIssueState whose state is
OPEN exactly for "open" and CLOSED for every other non-empty value, for
example "in_progress". -/
theorem github_update_status_state_mapping (s : String) :
    GitHubBackend.update_state_mutation (some s) =
      (if s = "" then none
       else some (if s = "open" then "OPEN" else "CLOSED")) ∧
    GitHubBackend.update_state_mutation none = none ∧
    GitHubBackend.update_state_mutation (some "in_progress") =
      some "CLOSED" := by
  refine ⟨?_, rfl, rfl⟩
  by_cases h : s = "" <;>
    simp [GitHubBackend.update_state_mutation, truthyStr, h]

/-- C7: on a local-scoped Config, list returns the global mapping updated
with the local one (local wins on collisions, keys only in the global keep
their global value), get falls back from local to global to the default, and
the concrete example from the spec evaluates to the merged dict. -/
theorem config_local_merge (G L : List (String × String)) (key : String)
    (default : Option String) (hnd : (dictKeys L).Nodup) :
    dictLookup (Config.list ⟨false, L, G⟩) key =
      orElseO (dictLookup L key) (dictLookup G key) ∧
    Config.get ⟨false, L, G⟩ key default =
      orElseO (dictLookup L key) (orElseO (dictLookup G key) default) ∧
    Config.list ⟨false, [("y", "3"), ("z", "4")], [("x", "1"), ("y", "2")]⟩ =
      [("x", "1"), ("y", "3"), ("z", "4")] := by
  refine ⟨?_, ?_, by rfl⟩
  · simpa [Config.list] using dictLookup_dictUpdate L G key hnd
  · simp only [Config.get]
    cases h1 : dictLookup L key <;>
      cases h2 : dictLookup G key <;>
        simp [orElseO, h1, h2]

theorem notion_collect_none (l : List Entity) :
    ∀ acc, NotionBackend.list_entities_collect l none acc =
      acc.reverse ++ l := by
  induction l with
  | nil => intro acc; simp [NotionBackend.list_entities_collect]
  | cons p rest ih =>
      intro acc
      simp [NotionBackend.list_entities_collect, truthyNat, ih]

theorem notion_collect_bound (n : Nat) (l : List Entity) :
    ∀ acc : List Entity, 0 < n → acc.length < n →
      (NotionBackend.list_entities_collect l (some n) acc).length ≤ n := by
  induction l with
  | nil =>
      intro acc _ hacc
      simpa [NotionBackend.list_entities_collect] using Nat.le_of_lt hacc
  | cons p rest ih =>
      intro acc hn hacc
      have ht : truthyNat (some n) = true := by
        simp [truthyNat, Nat.pos_iff_ne_zero.mp hn]
      by_cases hc : (p :: acc).length ≥ n
      · rw [NotionBackend.list_entities_collect,
          if_pos ⟨by simp [ht], by simpa using hc⟩]
        simpa using hacc
      · rw [NotionBackend.list_entities_collect,
          if_neg (fun hcon => hc hcon.2)]
        exact ih (p :: acc) hn (by simpa using Nat.lt_of_not_le hc)

/-- C8 amended: a positive limit bounds the returned list (Beads truncates
in code, Notion breaks its collection loop at the limit, GitHub requests
exactly that page size), while limit None or limit 0 apply no truncation at
this layer: Beads and Notion return the full fetched list, GitHub requests
the default page size 100, and Notion sends no page_size parameter for
None. -/
theorem list_entities_limit_semantics (entities results : List Entity)
    (n : Nat) (hn : 0 < n) :
    (BeadsBackend.list_entities_truncate entities (some n)).length ≤ n ∧
    (NotionBackend.list_entities_collect results (some n) []).length ≤ n ∧
    GitHubBackend.list_entities_first (some n) = n ∧
    NotionBackend.list_entities_page_size (some n) = some (min n 100) ∧
    BeadsBackend.list_entities_truncate entities none = entities ∧
    NotionBackend.list_entities_collect results none [] = results ∧
    GitHubBackend.list_entities_first none = 100 ∧
    NotionBackend.list_entities_page_size none = none ∧
    BeadsBackend.list_entities_truncate entities (some 0) = entities ∧
    GitHubBackend.list_entities_first (some 0) = 100 := by
  have hne : n ≠ 0 := Nat.pos_iff_ne_zero.mp hn
  refine ⟨?_, ?_, ?_, ?_, rfl, ?_, rfl, rfl, rfl, rfl⟩
  · simp [BeadsBackend.list_entities_truncate, truthyNat, hne]
  · exact notion_collect_bound n results [] hn hn
  · simp [GitHubBackend.list_entities_first, truthyNat, hne]
  · simp [NotionBackend.list_entities_page_size, truthyNat, hne]
  · simpa using notion_collect_none results []

/-- Witness for the C8 amended theorem at limit 1 on a one-entity list. -/
theorem list_entities_limit_semantics_witness :
    (BeadsBackend.list_entities_truncate [sampleEntity] (some 1)).length ≤ 1 :=
  (list_entities_limit_semantics [sampleEntity] [sampleEntity] 1
    (by decide)).1

/-- C8 counterexample: with limit 0 the Beads backend performs no truncation
(`if limit:` is false for 0) and returns the full list instead of the empty
list the claim requires, and the GitHub backend requests the default page
size 100 instead of 0. -/
theorem beads_limit_zero_counterexample :
    BeadsBackend.list_entities_truncate [sampleEntity] (some 0) ≠ [] ∧
    BeadsBackend.list_entities_truncate [sampleEntity] (some 0) =
      [sampleEntity] ∧
    GitHubBackend.list_entities_first (some 0) = 100 := by
  have h1 : BeadsBackend.list_entities_truncate [sampleEntity] (some 0) =
      [sampleEntity] := rfl
  exact ⟨by rw [h1]; exact List.cons_ne_nil _ _, h1, rfl⟩

/-- C2: on the GitHub backend, add_link A [B] "blocking" issues exactly the
native AddBlockedBy mutation of add_link B [A] "blocked by", with the
blocked issue B and the blocking issue A, and remove_link satisfies the same
inverse mapping with RemoveBlockedBy. -/
theorem github_blocking_inverse_mapping (nodeId : String → String)
    (A B : String) :
    GitHubBackend.add_link nodeId A [B] "blocking" =
      GitHubBackend.add_link nodeId B [A] "blocked by" ∧
    GitHubBackend.add_link nodeId A [B] "blocking" =
      .ok [.addBlockedBy (nodeId B) (nodeId A)] ∧
    GitHubBackend.remove_link nodeId A [B] "blocking" =
      GitHubBackend.remove_link nodeId B [A] "blocked by" ∧
    GitHubBackend.remove_link nodeId A [B] "blocking" =
      .ok [.removeBlockedBy (nodeId B) (nodeId A)] := by
  refine ⟨?_, ?_, ?_, ?_⟩ <;> rfl

/-- C1 counterexample: the four-type set is not accepted by all three
operations.  add_link "children" (a member of the claimed four-type set)
raises the unsupported-type error naming only the three-type set, and
list_links with the empty string (whose normalization is outside the set)
returns successfully instead of raising. -/
theorem github_children_add_link_counterexample :
    GitHubBackend.add_link (fun s => s) "1" ["2"] "children" =
      .error (.unsupportedLinkType "children" GitHubBackend.mutationTypes) ∧
    GitHubBackend.list_links ⟨[], [], none, []⟩ "1" (some "") =
      .ok [] := by
  exact ⟨rfl, rfl⟩

/-- C1 amended: after lowercasing and trimming, add_link and remove_link
accept exactly the three-type set containing blocked by, blocking and
parent, and fail on anything else with the error naming the offending
normalized type and that three-type set; list_links accepts exactly the
four-type set additionally containing children and names the four-type set
in its error, except that a falsy link type (None or the empty string)
skips the check and lists every category. -/
theorem github_link_type_gate (nodeId : String → String) (s : String)
    (ts : List String) (lt : String)
    (data : GitHubBackend.IssueLinksData) :
    (GitHubBackend.normalizeLinkType lt ∈ GitHubBackend.mutationTypes →
      (∃ calls, GitHubBackend.add_link nodeId s ts lt = .ok calls) ∧
      (∃ calls, GitHubBackend.remove_link nodeId s ts lt = .ok calls)) ∧
    (GitHubBackend.normalizeLinkType lt ∉ GitHubBackend.mutationTypes →
      GitHubBackend.add_link nodeId s ts lt =
        .error (.unsupportedLinkType (GitHubBackend.normalizeLinkType lt)
          GitHubBackend.mutationTypes) ∧
      GitHubBackend.remove_link nodeId s ts lt =
        .error (.unsupportedLinkType (GitHubBackend.normalizeLinkType lt)
          GitHubBackend.mutationTypes)) ∧
    (lt ≠ "" → GitHubBackend.normalizeLinkType lt ∈ GitHubBackend.queryTypes →
      GitHubBackend.list_links data s (some lt) =
        .ok (GitHubBackend.list_links_categories data s
          (some (GitHubBackend.normalizeLinkType lt)))) ∧
    (lt ≠ "" → GitHubBackend.normalizeLinkType lt ∉ GitHubBackend.queryTypes →
      GitHubBackend.list_links data s (some lt) =
        .error (.unsupportedLinkType (GitHubBackend.normalizeLinkType lt)
          GitHubBackend.queryTypes)) ∧
    GitHubBackend.list_links data s (some "") =
      GitHubBackend.list_links data s none := by
  refine ⟨?_, ?_, ?_, ?_, rfl⟩
  · intro h
    have hadd : GitHubBackend.add_link nodeId s ts lt =
        .ok (ts.map fun target_id =>
          if GitHubBackend.normalizeLinkType lt = "blocked by" then
            .addBlockedBy (nodeId s) (nodeId target_id)
          else if GitHubBackend.normalizeLinkType lt = "blocking" then
            .addBlockedBy (nodeId target_id) (nodeId s)
          else .addSubIssue (nodeId s) (nodeId target_id)) := by
      simp [GitHubBackend.add_link, h]
    have hrem : GitHubBackend.remove_link nodeId s ts lt =
        .ok (ts.map fun target_id =>
          if GitHubBackend.normalizeLinkType lt = "blocked by" then
            .removeBlockedBy (nodeId s) (nodeId target_id)
          else if GitHubBackend.normalizeLinkType lt = "blocking" then
            .removeBlockedBy (nodeId target_id) (nodeId s)
          else .removeSubIssue (nodeId s) (nodeId target_id)) := by
      simp [GitHubBackend.remove_link, h]
    exact ⟨⟨_, hadd⟩, ⟨_, hrem⟩⟩
  · intro h
    exact ⟨by simp [GitHubBackend.add_link, h],
      by simp [GitHubBackend.remove_link, h]⟩
  · intro hne h
    have ht : truthyStr (some lt) = true := by simp [truthyStr, hne]
    simp [GitHubBackend.list_links, ht, h]
  · intro hne h
    have ht : truthyStr (some lt) = true := by simp [truthyStr, hne]
    simp [GitHubBackend.list_links, ht, h]

/-- Witness for the C1 amended theorem: "BLOCKED BY" normalizes into the
three-type set and is accepted by add_link, while "children" is outside the
three-type set and rejected by add_link and remove_link. -/
theorem github_link_type_gate_witness :
    (∃ calls, GitHubBackend.add_link (fun s => s) "1" ["2"] "BLOCKED BY" =
      .ok calls) ∧
    GitHubBackend.add_link (fun s => s) "1" ["2"] "children" =
      .error (.unsupportedLinkType "children" GitHubBackend.mutationTypes) ∧
    GitHubBackend.list_links ⟨[], [], none, []⟩ "1" (some "CHILDREN") =
      .ok (GitHubBackend.list_links_categories ⟨[], [], none, []⟩ "1"
        (some "children")) := by
  refine ⟨((github_link_type_gate (fun s => s) "1" ["2"] "BLOCKED BY"
    ⟨[], [], none, []⟩).1 (by decide)).1, ?_, ?_⟩
  · exact ((github_link_type_gate (fun s => s) "1" ["2"] "children"
      ⟨[], [], none, []⟩).2.1 (by decide)).1
  · exact (github_link_type_gate (fun s => s) "1" ["2"] "CHILDREN"
      ⟨[], [], none, []⟩).2.2.1 (by decide) (by decide)

theorem apply_label_calls_removals (rs : List Str) :
    ∀ names : List Str,
      BeadsBackend.apply_label_calls names (rs.map .remove) =
        names.filter (fun x => x ∉ rs) := by
  induction rs with
  | nil => intro names; simp [BeadsBackend.apply_label_calls]
  | cons r rest ih =>
      intro names
      show BeadsBackend.apply_label_calls (names.filter fun x => x ≠ r)
        (rest.map .remove) = _
      rw [ih, List.filter_filter]
      apply List.filter_congr
      intro x _
      by_cases h1 : x = r <;> by_cases h2 : x ∈ rest <;>
        simp [h1, h2]

theorem filter_not_mem_self (names : List Str) :
    names.filter (fun x => x ∉ names) = [] := by
  rw [List.filter_eq_nil_iff]
  intro a ha
  simp [ha]

/-- C3: with labels None the GitHub update issues no label mutation and the
label names stay, while labels empty-dict replaces them with the empty list,
the two results differing whenever a label exists; the Beads update issues
no label subcommand for None and for empty-dict removes every existing
label and adds none, leaving the native label set empty; the Notion
property Labels is absent from the built properties for None (left
unchanged by the page update) and bound to an empty multi-select for the
empty dict. -/
theorem update_labels_none_vs_empty (current_names : List Str)
    (current : List (Str × Str)) (t d st a : Option String) :
    GitHubBackend.update_apply_labels current_names none = current_names ∧
    GitHubBackend.update_apply_labels current_names (some []) = [] ∧
    (current_names ≠ [] →
      GitHubBackend.update_apply_labels current_names none ≠
        GitHubBackend.update_apply_labels current_names (some [])) ∧
    BeadsBackend.update_label_calls current none = [] ∧
    BeadsBackend.apply_label_calls
        (current.map BeadsBackend.update_label_str)
        (BeadsBackend.update_label_calls current (some [])) = [] ∧
    (∀ names, BeadsBackend.apply_label_calls names
        (BeadsBackend.update_label_calls current none) = names) ∧
    dictLookup (NotionBackend.build_properties t d none st a) "Labels" =
      none ∧
    dictLookup (NotionBackend.build_properties t d (some []) st a)
      "Labels" = some (.multi_select []) := by
  refine ⟨rfl, rfl, ?_, rfl, ?_, fun _ => rfl, ?_, ?_⟩
  · intro h
    exact h
  · have hmap : BeadsBackend.update_label_calls current (some []) =
        (current.map BeadsBackend.update_label_str).map .remove := by
      simp [BeadsBackend.update_label_calls, List.map_map]
    rw [hmap, apply_label_calls_removals, filter_not_mem_self]
  · cases t <;> cases d <;> cases st <;> cases a <;> rfl
  · cases t <;> cases d <;> cases st <;> cases a <;> rfl

/-- Witness for C3 at a one-label entity. -/
theorem update_labels_none_vs_empty_witness :
    GitHubBackend.update_apply_labels [['a']] none ≠
      GitHubBackend.update_apply_labels [['a']] (some []) :=
  (update_labels_none_vs_empty [['a']] [(['a'], ['1'])]
    none none none none).2.2.1 (by decide)

theorem splitFirst_append (c : Char) (v : Str) :
    ∀ k : Str, (∀ a ∈ k, a ≠ c) → splitFirst c (k ++ c :: v) = (k, v) := by
  intro k
  induction k with
  | nil => intro _; simp [splitFirst]
  | cons x xs ih =>
      intro h
      have hx : x ≠ c := h x (List.mem_cons_self x xs)
      simp [splitFirst, hx,
        ih (fun a ha => h a (List.mem_cons_of_mem x ha))]

theorem parse_label_piece_format (k v : Str) (hk : ':' ∉ k)
    (hks : pyStrip k = k) (hvs : pyStrip v = v) :
    GitHubBackend.parse_label_piece (if v = [] then k else k ++ ':' :: v) =
      (k, v) := by
  by_cases hve : v = []
  · subst hve
    simp [GitHubBackend.parse_label_piece, hk, hks]
  · rw [if_neg hve]
    have hmem : ':' ∈ k ++ ':' :: v :=
      List.mem_append_right _ (List.mem_cons_self _ _)
    have hsp := splitFirst_append ':' v k (fun a ha hac => hk (hac ▸ ha))
    simp [GitHubBackend.parse_label_piece, hmem, hsp, hks, hvs]

theorem bead_label_piece_format (k v : Str) (hk : ':' ∉ k) :
    BeadsBackend.bead_label_piece (if v = [] then k else k ++ ':' :: v) =
      (k, v) := by
  by_cases hve : v = []
  · subst hve
    simp [BeadsBackend.bead_label_piece, hk]
  · rw [if_neg hve]
    have hmem : ':' ∈ k ++ ':' :: v :=
      List.mem_append_right _ (List.mem_cons_self _ _)
    have hsp := splitFirst_append ':' v k (fun a ha hac => hk (hac ▸ ha))
    simp [BeadsBackend.bead_label_piece, hmem, hsp]

theorem page_label_piece_format (k v : Str) (hk : ':' ∉ k)
    (hks : pyStrip k = k) (hvs : pyStrip v = v) :
    NotionBackend.page_label_piece (if v = [] then k else k ++ ':' :: v) =
      (k, v) := by
  by_cases hve : v = []
  · subst hve
    simp [NotionBackend.page_label_piece, hk]
  · rw [if_neg hve]
    have hmem : ':' ∈ k ++ ':' :: v :=
      List.mem_append_right _ (List.mem_cons_self _ _)
    have hsp := splitFirst_append ':' v k (fun a ha hac => hk (hac ▸ ha))
    simp [NotionBackend.page_label_piece, hmem, hsp, hks, hvs]

theorem format_map_parse : ∀ m : List (Str × Str),
    (∀ kv ∈ m, goodLabelEntry kv) →
    (GitHubBackend.format_labels m).map GitHubBackend.parse_label_piece =
      m := by
  intro m
  induction m with
  | nil => intro _; rfl
  | cons kv rest ih =>
      intro hg
      obtain ⟨k, v⟩ := kv
      obtain ⟨h1, h2, h3, h4, h5, h6, h7⟩ :=
        hg (k, v) (List.mem_cons_self _ _)
      show GitHubBackend.parse_label_piece
          (if v = [] then k else k ++ ':' :: v) ::
        (GitHubBackend.format_labels rest).map
          GitHubBackend.parse_label_piece = (k, v) :: rest
      rw [parse_label_piece_format k v h2 h4 h7,
        ih (fun kv hkv => hg kv (List.mem_cons_of_mem _ hkv))]

theorem format_map_bead : ∀ m : List (Str × Str),
    (∀ kv ∈ m, goodLabelEntry kv) →
    (BeadsBackend.create_label_list m).map BeadsBackend.bead_label_piece =
      m := by
  intro m
  induction m with
  | nil => intro _; rfl
  | cons kv rest ih =>
      intro hg
      obtain ⟨k, v⟩ := kv
      obtain ⟨h1, h2, h3, h4, h5, h6, h7⟩ :=
        hg (k, v) (List.mem_cons_self _ _)
      show BeadsBackend.bead_label_piece
          (if v = [] then k else k ++ ':' :: v) ::
        (BeadsBackend.create_label_list rest).map
          BeadsBackend.bead_label_piece = (k, v) :: rest
      rw [bead_label_piece_format k v h2,
        ih (fun kv hkv => hg kv (List.mem_cons_of_mem _ hkv))]

theorem format_map_page : ∀ m : List (Str × Str),
    (∀ kv ∈ m, goodLabelEntry kv) →
    (NotionBackend.build_label_names m).map NotionBackend.page_label_piece =
      m := by
  intro m
  induction m with
  | nil => intro _; rfl
  | cons kv rest ih =>
      intro hg
      obtain ⟨k, v⟩ := kv
      obtain ⟨h1, h2, h3, h4, h5, h6, h7⟩ :=
        hg (k, v) (List.mem_cons_self _ _)
      show NotionBackend.page_label_piece
          (if v = [] then k else k ++ ':' :: v) ::
        (NotionBackend.build_label_names rest).map
          NotionBackend.page_label_piece = (k, v) :: rest
      rw [page_label_piece_format k v h2 h4 h7,
        ih (fun kv hkv => hg kv (List.mem_cons_of_mem _ hkv))]

theorem format_labels_no_comma (m : List (Str × Str))
    (hg : ∀ kv ∈ m, goodLabelEntry kv) :
    ∀ l ∈ GitHubBackend.format_labels m, ',' ∉ l := by
  intro l hl
  rw [GitHubBackend.format_labels, List.mem_map] at hl
  obtain ⟨kv, hkv, rfl⟩ := hl
  obtain ⟨h1, h2, h3, h4, h5, h6, h7⟩ := hg kv hkv
  by_cases hve : kv.2 = []
  · simpa [hve] using h3
  · simp only [if_neg hve, List.mem_append, List.mem_cons]
    rintro (hc | hc | hc)
    · exact h3 hc
    · exact absurd hc (by decide)
    · exact h6 hc

theorem intercalate_head_ne_nil (s x : Str) (xs : List Str) (hx : x ≠ []) :
    List.intercalate s (x :: xs) ≠ [] := by
  cases xs with
  | nil => simpa [List.intercalate] using hx
  | cons y ys =>
      have hic : List.intercalate s (x :: y :: ys) =
          x ++ s ++ List.intercalate s (y :: ys) := by
        simp [List.intercalate, List.intersperse]
      rw [hic]
      simp [hx]

/-- C4 amended: for every label mapping whose keys are distinct and whose
keys and values contain no colon and no comma and carry no leading or
trailing whitespace (keys non-empty), the encode and decode steps of each
adapter are mutually inverse: the GitHub round trip through the
comma-joined label names, the Beads round trip through the -l label list,
and the Notion round trip through the multi-select names all reproduce the
mapping exactly; the mapping with key a bound to 1 and key b bound to the
empty value satisfies these conditions. -/
theorem label_roundtrip_identity (m : List (Str × Str))
    (hnd : (dictKeys m).Nodup) (hg : ∀ kv ∈ m, goodLabelEntry kv) :
    GitHubBackend.parse_labels
        (List.intercalate [','] (GitHubBackend.format_labels m)) = m ∧
    BeadsBackend.bead_labels_decode (BeadsBackend.create_label_list m) =
      m ∧
    NotionBackend.page_labels_decode (NotionBackend.build_label_names m) =
      m := by
  refine ⟨?_, ?_, ?_⟩
  · rcases m with _ | ⟨kv, rest⟩
    · rfl
    · obtain ⟨h1, h2, h3, h4, h5, h6, h7⟩ :=
        hg kv (List.mem_cons_self _ _)
      have hform : GitHubBackend.format_labels (kv :: rest) =
          (if kv.2 = [] then kv.1 else kv.1 ++ ':' :: kv.2) ::
            GitHubBackend.format_labels rest := rfl
      have hhead : (if kv.2 = [] then kv.1 else kv.1 ++ ':' :: kv.2) ≠
          [] := by
        by_cases hv : kv.2 = [] <;> simp [hv, h1]
      have hjoin : List.intercalate [',']
          (GitHubBackend.format_labels (kv :: rest)) ≠ [] := by
        rw [hform]
        exact intercalate_head_ne_nil [','] _ _ hhead
      have hsplit := List.splitOn_intercalate
        (GitHubBackend.format_labels (kv :: rest)) ','
        (format_labels_no_comma (kv :: rest) hg)
        (by rw [hform]; exact List.cons_ne_nil _ _)
      simp only [GitHubBackend.parse_labels, if_neg hjoin]
      rw [hsplit, format_map_parse (kv :: rest) hg]
      exact dictOfList_eq_self _ hnd
  · rw [BeadsBackend.bead_labels_decode, format_map_bead m hg]
    exact dictOfList_eq_self _ hnd
  · rw [NotionBackend.page_labels_decode, format_map_page m hg]
    exact dictOfList_eq_self _ hnd

/-- Witness for the C4 amended theorem at the mapping binding key a to 1 and
key b to the empty value, the concrete mapping of the claim. -/
theorem label_roundtrip_identity_witness :
    GitHubBackend.parse_labels
        (List.intercalate [','] (GitHubBackend.format_labels
          [(['a'], ['1']), (['b'], [])])) = [(['a'], ['1']), (['b'], [])] :=
  (label_roundtrip_identity [(['a'], ['1']), (['b'], [])]
    (by decide) (by decide)).1

/-- C4 counterexample: the claimed identity for every colon-free label map
fails, because decoding strips whitespace that encoding preserves: the map
binding the key formed of a space followed by a does not survive the GitHub
round trip. -/
theorem github_label_roundtrip_counterexample :
    GitHubBackend.parse_labels
        (List.intercalate [','] (GitHubBackend.format_labels
          [([' ', 'a'], [])])) ≠ [([' ', 'a'], [])] := by
  decide

theorem treeLinksAllLists_mk (e c b bb pv : PyVal)
    (hc : isListVal c = true) (hb : isListVal b = true)
    (hbb : isListVal bb = true) (hpv : isListVal pv = true) :
    treeLinksAllLists (.dict [("entity", e), ("links", .dict
      [("children", c), ("blocking", b), ("blocked_by", bb),
       ("parent", pv)])]) = true := by
  simp [treeLinksAllLists, dictLookup, hc, hb, hbb, hpv]

/-- C5: on all three backends the link tree binds the key links to a dict
carrying all four canonical categories as lists (never absent, never the
embedded None), and the key entity to a record with the id, title and state
of the requested entity; for the Beads backend this holds for every bd dep
tree result that is well formed per the bd JSON contract. -/
theorem get_link_tree_shape (gd : GitHubBackend.IssueTreeData)
    (issue : Entity) (result : PyVal) (hwf : beadsTreeWF result)
    (entity : Entity) (links : List Link)
    (fetch : String → Option Entity) :
    treeLinksAllLists (GitHubBackend.get_link_tree gd) = true ∧
    treeEntityOk (GitHubBackend.get_link_tree gd) (toString gd.number)
      gd.title (String.mk (pyLower gd.state.data)) ∧
    treeLinksAllLists (BeadsBackend.get_link_tree issue result) = true ∧
    treeEntityOk (BeadsBackend.get_link_tree issue result) issue.id
      issue.title issue.status ∧
    treeLinksAllLists (NotionBackend.get_link_tree entity links fetch) =
      true ∧
    treeEntityOk (NotionBackend.get_link_tree entity links fetch)
      entity.id entity.title entity.status := by
  refine ⟨rfl, ?_, ?_, ?_, rfl, ?_⟩
  · exact ⟨rfl, rfl, rfl⟩
  · rcases result with s | xs | d | _
    rotate_left 2
    · obtain ⟨hl, hp⟩ := hwf d rfl
      refine treeLinksAllLists_mk _ _ _ _ _ ?_ ?_ ?_ ?_
      · cases h : dictLookup d "children" with
        | none => rfl
        | some v => simpa [h] using hl "children" (by simp) v h
      · cases h : dictLookup d "blocking" with
        | none => rfl
        | some v => simpa [h] using hl "blocking" (by simp) v h
      · cases h : dictLookup d "blocked_by" with
        | none => rfl
        | some v => simpa [h] using hl "blocked_by" (by simp) v h
      · cases h : dictLookup d "parent" with
        | none => rfl
        | some p =>
            simp only [h]
            rcases hp p h with ⟨e, rfl⟩ | hplist | hfalsy
            · by_cases ht : pyTruthy (.dict e) = true <;>
                simp [ht, isListVal]
            · rcases p with s | xs | e2 | _
              · exact absurd hplist (by simp [isListVal])
              · by_cases ht : pyTruthy (.list xs) = true <;>
                  simp [ht, isListVal]
              · by_cases ht : pyTruthy (.dict e2) = true <;>
                  simp [ht, isListVal]
              · exact absurd hplist (by simp [isListVal])
            · simp [hfalsy, isListVal]
    · exact rfl
    · exact rfl
    · exact rfl
  · rcases result with s | xs | d | _ <;> exact ⟨rfl, rfl, rfl⟩
  · exact ⟨rfl, rfl, rfl⟩

/-- Witness for C5 at a concrete issue, an empty bd result and no links. -/
theorem get_link_tree_shape_witness :
    treeLinksAllLists (BeadsBackend.get_link_tree sampleEntity .pynone) =
      true :=
  (get_link_tree_shape ⟨1, "t", "OPEN", [], [], none, []⟩ sampleEntity
    .pynone (fun d h => by cases h) sampleEntity [] (fun _ => none)).2.2.1

theorem getRelation_setRelation (page : NotionBackend.PageRelations)
    (pn : String) (rels : List String) :
    NotionBackend.getRelation (NotionBackend.setRelation page pn rels) pn =
      rels := by
  unfold NotionBackend.getRelation NotionBackend.setRelation
  split_ifs <;> rfl

theorem notion_list_links_filtered (page : NotionBackend.PageRelations)
    (A lt pn : String)
    (hlt : dictLookup NotionBackend.property_map
      (GitHubBackend.normalizeLinkType lt) = some pn) (hne : lt ≠ "") :
    NotionBackend.list_links page A (some lt) =
      (NotionBackend.getRelation page pn).map
        (fun t => ⟨A, t, GitHubBackend.normalizeLinkType lt⟩) := by
  have ht : truthyStr (some lt) = true := by simp [truthyStr, hne]
  simp only [NotionBackend.property_map, dictLookup] at hlt
  split_ifs at hlt with h1 h2 h3 h4
  all_goals simp only [Option.some.injEq] at hlt
  · subst hlt
    rw [NotionBackend.list_links]
    simp only [ht, Option.getD, ← h1]
    simp [NotionBackend.property_map, NotionBackend.getRelation, truthyStr]
  · subst hlt
    rw [NotionBackend.list_links]
    simp only [ht, Option.getD, ← h2]
    simp [NotionBackend.property_map, NotionBackend.getRelation, truthyStr]
  · subst hlt
    rw [NotionBackend.list_links]
    simp only [ht, Option.getD, ← h3]
    simp [NotionBackend.property_map, NotionBackend.getRelation, truthyStr]
  · subst hlt
    rw [NotionBackend.list_links]
    simp only [ht, Option.getD, ← h4]
    simp [NotionBackend.property_map, NotionBackend.getRelation, truthyStr]

/-- C6: the Notion add_link writes back the union of the existing relation
ids and the targets, so adding the same targets twice leaves each target
exactly once in the relation, and a subsequent filtered list_links reports
the edge to a target exactly once. -/
theorem notion_add_link_idempotent (page : NotionBackend.PageRelations)
    (target_ids : List String) (B A lt pn : String)
    (hlt : dictLookup NotionBackend.property_map
      (GitHubBackend.normalizeLinkType lt) = some pn)
    (hB : B ∈ target_ids) :
    ∃ p1 p2,
      NotionBackend.add_link page target_ids lt = .ok p1 ∧
      NotionBackend.add_link p1 target_ids lt = .ok p2 ∧
      List.count B (NotionBackend.getRelation p1 pn) = 1 ∧
      List.count B (NotionBackend.getRelation p2 pn) = 1 ∧
      List.count (⟨A, B, GitHubBackend.normalizeLinkType lt⟩ : Link)
        (NotionBackend.list_links p2 A (some lt)) = 1 := by
  have hne : lt ≠ "" := by
    intro h
    subst h
    have hnone : dictLookup NotionBackend.property_map
        (GitHubBackend.normalizeLinkType "") = (none : Option String) := by
      decide
    rw [hnone] at hlt
    cases hlt
  have hadd1 : NotionBackend.add_link page target_ids lt =
      .ok (NotionBackend.setRelation page pn
        ((NotionBackend.getRelation page pn ++ target_ids).dedup)) := by
    rw [NotionBackend.add_link, hlt]
  set p1 := NotionBackend.setRelation page pn
    ((NotionBackend.getRelation page pn ++ target_ids).dedup) with hp1
  have hadd2 : NotionBackend.add_link p1 target_ids lt =
      .ok (NotionBackend.setRelation p1 pn
        ((NotionBackend.getRelation p1 pn ++ target_ids).dedup)) := by
    rw [NotionBackend.add_link, hlt]
  set p2 := NotionBackend.setRelation p1 pn
    ((NotionBackend.getRelation p1 pn ++ target_ids).dedup) with hp2
  have hr1 : NotionBackend.getRelation p1 pn =
      (NotionBackend.getRelation page pn ++ target_ids).dedup :=
    getRelation_setRelation page pn _
  have hr2 : NotionBackend.getRelation p2 pn =
      (NotionBackend.getRelation p1 pn ++ target_ids).dedup :=
    getRelation_setRelation p1 pn _
  have hmem1 : B ∈ NotionBackend.getRelation p1 pn := by
    rw [hr1, List.mem_dedup]
    exact List.mem_append_right _ hB
  have hmem2 : B ∈ NotionBackend.getRelation p2 pn := by
    rw [hr2, List.mem_dedup]
    exact List.mem_append_right _ hB
  have hnd1 : (NotionBackend.getRelation p1 pn).Nodup := by
    rw [hr1]; exact List.nodup_dedup _
  have hnd2 : (NotionBackend.getRelation p2 pn).Nodup := by
    rw [hr2]; exact List.nodup_dedup _
  refine ⟨p1, p2, hadd1, hadd2,
    List.count_eq_one_of_mem hnd1 hmem1,
    List.count_eq_one_of_mem hnd2 hmem2, ?_⟩
  rw [notion_list_links_filtered p2 A lt pn hlt hne]
  have hinj : Function.Injective
      (fun t => (⟨A, t, GitHubBackend.normalizeLinkType lt⟩ : Link)) := by
    intro x y hxy
    injection hxy with h1 h2 h3
  have hndm := hnd2.map hinj
    (f := fun t => (⟨A, t, GitHubBackend.normalizeLinkType lt⟩ : Link))
  exact List.count_eq_one_of_mem hndm
    (List.mem_map_of_mem _ hmem2)

/-- Witness for C6 at a fresh page, one target and the parent link type. -/
theorem notion_add_link_idempotent_witness :
    ∃ p1 p2,
      NotionBackend.add_link {} ["B"] "parent" = .ok p1 ∧
      NotionBackend.add_link p1 ["B"] "parent" = .ok p2 ∧
      List.count "B" (NotionBackend.getRelation p1 "Parent") = 1 ∧
      List.count "B" (NotionBackend.getRelation p2 "Parent") = 1 ∧
      List.count (⟨"A", "B", GitHubBackend.normalizeLinkType "parent"⟩ :
        Link) (NotionBackend.list_links p2 "A" (some "parent")) = 1 :=
  notion_add_link_idempotent {} ["B"] "B" "A" "parent" "Parent"
    (by decide) (by decide)

/-- Witness for C7 at the concrete global and local mappings of the spec
example. -/
theorem config_local_merge_witness :
    dictLookup
        (Config.list ⟨false, [("y", "3"), ("z", "4")], [("x", "1"), ("y", "2")]⟩)
        "y" =
      orElseO (dictLookup [("y", "3"), ("z", "4")] "y")
        (dictLookup [("x", "1"), ("y", "2")] "y") :=
  (config_local_merge [("x", "1"), ("y", "2")] [("y", "3"), ("z", "4")]
    "y" none (by decide)).1

end EntityManager
